import Mathlib

/-
Verification of the Product Availability & Pricing Normalization Service.

Shallow embedding of the core modules:
  - business_logic.py : BusinessLogicService.select_best_vendor and
    _apply_enhanced_selection_rules (the SelectionEngine)
  - circuit_breaker.py : CircuitBreaker.call (per-vendor failure isolation)
  - cache_service.py : CacheService.get_product / set_product (ResultCache)
    and update_vendor_performance (PerformanceTracker)
  - vendor_service.py : the three _normalize_vendorN_response adapters
  - config.py : the configuration constants used by the above

Python floats are modelled as exact rationals, Python ints as Int or Nat,
and datetimes as integer seconds.  Fallible code (Python exceptions) is
modelled with Except.
-/

namespace PapsService

/-! ## Configuration constants (config.py) -/

/-- config.py: CACHE_TTL_SECONDS = 120 (2 minutes). -/
def CACHE_TTL_SECONDS : ℤ := 120

/-- config.py: DATA_FRESHNESS_MINUTES = 10, used as timedelta(minutes=10),
i.e. 600 seconds. -/
def DATA_FRESHNESS_SECONDS : ℤ := 600

/-- config.py: PRICE_DIFFERENCE_THRESHOLD = 0.10. -/
def PRICE_DIFFERENCE_THRESHOLD : ℚ := 1 / 10

/-- config.py: CIRCUIT_FAILURE_THRESHOLD = 3. -/
def CIRCUIT_FAILURE_THRESHOLD : ℕ := 3

/-- config.py: CIRCUIT_COOLDOWN_SECONDS = 30. -/
def CIRCUIT_COOLDOWN_SECONDS : ℤ := 30

/-! ## Data model (models.py) -/

/-- models.py NormalizedProduct: the normalized offer one vendor adapter
produces.  `timestamp` is in integer seconds. -/
structure NormalizedProduct where
  sku : String
  vendor_name : String
  stock : ℤ
  price : ℚ
  timestamp : ℤ
  is_valid : Bool
deriving DecidableEq, Repr

instance : Inhabited NormalizedProduct := ⟨⟨"", "", 0, 0, 0, false⟩⟩

/-- models.py ProductResponse: the final API response (the SelectionResult). -/
structure ProductResponse where
  sku : String
  best_vendor : Option String
  price : Option ℚ
  stock : Option ℤ
  status : String
  vendors_checked : ℕ
  cache_hit : Bool
deriving DecidableEq, Repr

/-! ## SelectionEngine (business_logic.py) -/

/-- The sort key relation used by
`sorted(products, key=lambda p: p.price)`. -/
def priceLE (a b : NormalizedProduct) : Prop := a.price ≤ b.price

instance : DecidableRel priceLE :=
  fun a b => (inferInstance : Decidable (a.price ≤ b.price))

instance : IsTotal NormalizedProduct priceLE := ⟨fun a b => le_total a.price b.price⟩

instance : IsTrans NormalizedProduct priceLE := ⟨fun _ _ _ h h' => le_trans h h'⟩

/-- Strict version of the price order, used to identify the sorted list
uniquely when all prices are distinct. -/
def priceLT (a b : NormalizedProduct) : Prop := a.price < b.price

instance : IsAntisymm NormalizedProduct priceLT :=
  ⟨fun _ _ h h' => absurd h' (lt_asymm h)⟩

/-- business_logic.py line 73: `sorted(products, key=lambda p: p.price)`.
Python sorted is stable; insertion sort with a non-strict comparison is the
same stable sort. -/
def sortByPrice (l : List NormalizedProduct) : List NormalizedProduct :=
  List.insertionSort priceLE l

/-- business_logic.py BusinessLogicService._apply_enhanced_selection_rules.
On the empty list (which the caller never passes, and on which the Python
code would raise IndexError) this returns the Inhabited default. -/
def apply_enhanced_selection_rules (products : List NormalizedProduct) :
    NormalizedProduct :=
  if products.length = 1 then products.headI
  else
    let sorted := sortByPrice products
    let lowest := sorted.headI
    (sorted.tail.find? (fun p =>
        decide (PRICE_DIFFERENCE_THRESHOLD < (p.price - lowest.price) / lowest.price) &&
        decide (lowest.stock < p.stock))).getD lowest

/-- business_logic.py BusinessLogicService.select_best_vendor. -/
def select_best_vendor (products : List NormalizedProduct) : ProductResponse :=
  if products.isEmpty then
    { sku := "UNKNOWN", best_vendor := none, price := none, stock := none,
      status := "OUT_OF_STOCK", vendors_checked := 0, cache_hit := false }
  else
    let sku := products.headI.sku
    let vendors_checked := products.length
    let valid_products := products.filter (fun p => p.is_valid)
    if valid_products.isEmpty then
      { sku := sku, best_vendor := none, price := none, stock := none,
        status := "OUT_OF_STOCK", vendors_checked := vendors_checked, cache_hit := false }
    else
      let in_stock_products := valid_products.filter (fun p => decide (0 < p.stock))
      if in_stock_products.isEmpty then
        { sku := sku, best_vendor := none, price := none, stock := none,
          status := "OUT_OF_STOCK", vendors_checked := vendors_checked, cache_hit := false }
      else
        let best := apply_enhanced_selection_rules in_stock_products
        { sku := sku, best_vendor := some best.vendor_name, price := some best.price,
          stock := some best.stock, status := "AVAILABLE",
          vendors_checked := vendors_checked, cache_hit := false }

/-- The valid, in-stock offers that reach the enhanced selection rules:
the two successive filters of select_best_vendor. -/
def in_stock_valid (l : List NormalizedProduct) : List NormalizedProduct :=
  (l.filter (fun p => p.is_valid)).filter (fun p => decide (0 < p.stock))

/-- The winner described by the price-stock rule of the spec: sort ascending
by price (stable), take the lowest-priced offer as baseline, and return the
first offer in ascending price order whose price exceeds the baseline by
strictly more than the 10% threshold and whose stock strictly exceeds the
baseline's stock; if none exists, return the baseline. -/
def selection_rule_winner (l : List NormalizedProduct) : NormalizedProduct :=
  let sorted := sortByPrice l
  let lowest := sorted.headI
  (sorted.tail.find? (fun p =>
      decide (PRICE_DIFFERENCE_THRESHOLD < (p.price - lowest.price) / lowest.price) &&
      decide (lowest.stock < p.stock))).getD lowest

/-! ## CircuitBreaker (circuit_breaker.py) -/

/-- models.py CircuitState enumeration. -/
inductive CircuitState where
  | CLOSED
  | OPEN
  | HALF_OPEN
deriving DecidableEq, Repr

/-- models.py CircuitBreakerState.  Times are integer seconds. -/
structure CircuitBreakerState where
  vendor_name : String
  state : CircuitState
  failure_count : ℕ
  last_failure_time : Option ℤ
  next_attempt_time : Option ℤ
deriving DecidableEq, Repr

/-- The default CircuitBreakerState that cache_service.get_circuit_state
returns when nothing is persisted: state CLOSED, zero failures. -/
def initCircuitState (v : String) : CircuitBreakerState :=
  { vendor_name := v, state := .CLOSED, failure_count := 0,
    last_failure_time := none, next_attempt_time := none }

/-- The observable outcome of one CircuitBreaker.call: the CircuitBreakerState
after the call, whether the wrapped function was invoked, whether a non-None
result was returned to the caller, and whether any update_circuit_state
persistence write happened. -/
structure CallOutcome where
  st : CircuitBreakerState
  invoked : Bool
  returned : Bool
  wrote : Bool
deriving DecidableEq, Repr

/-- circuit_breaker.py lines 36-62: the try/except body of CircuitBreaker.call
once the function is about to be invoked.  `success` is whether the wrapped
coroutine returns normally; `wrote0` records whether the OPEN to HALF_OPEN
transition already persisted a write before the invocation. -/
def circuit_on_result (s : CircuitBreakerState) (now : ℤ) (success : Bool)
    (wrote0 : Bool) : CallOutcome :=
  if success then
    if s.state = .HALF_OPEN ∨ 0 < s.failure_count then
      let reset := { s with
        state := CircuitState.CLOSED, failure_count := 0,
        last_failure_time := none, next_attempt_time := none }
      { st := reset, invoked := true, returned := true, wrote := true }
    else
      { st := s, invoked := true, returned := true, wrote := wrote0 }
  else
    let fc := s.failure_count + 1
    let s1 := { s with failure_count := fc, last_failure_time := some now }
    let s2 := if CIRCUIT_FAILURE_THRESHOLD ≤ fc then
        { s1 with
          state := CircuitState.OPEN,
          next_attempt_time := some (now + CIRCUIT_COOLDOWN_SECONDS) }
      else s1
    { st := s2, invoked := true, returned := false, wrote := true }

/-- circuit_breaker.py CircuitBreaker.call.  `success` is the behaviour the
wrapped function would have if invoked (it is ignored when the breaker
short-circuits). -/
def circuit_call (s : CircuitBreakerState) (now : ℤ) (success : Bool) :
    CallOutcome :=
  if s.state = .OPEN then
    match s.next_attempt_time with
    | some t =>
      if t ≤ now then
        circuit_on_result { s with state := .HALF_OPEN } now success true
      else
        { st := s, invoked := false, returned := false, wrote := false }
    | none => { st := s, invoked := false, returned := false, wrote := false }
  else
    circuit_on_result s now success false

/-- Folds a sequence of calls (time, wrapped-function behaviour) through the
circuit breaker, keeping only the persisted state. -/
def circuit_run (s : CircuitBreakerState) (calls : List (ℤ × Bool)) :
    CircuitBreakerState :=
  calls.foldl (fun st c => (circuit_call st c.1 c.2).st) s

/-! ## ResultCache (cache_service.py get_product / set_product) -/

/-- One persisted cache entry: the stored response and the absolute expiry
time that setex with CACHE_TTL_SECONDS establishes. -/
structure CacheEntry where
  value : ProductResponse
  expires_at : ℤ
deriving DecidableEq, Repr

/-- The key-value store restricted to the product:sku family. -/
def CacheState : Type := String → Option CacheEntry

/-- cache_service.py CacheService.set_product: stores the response with
cache_hit reset to false, under a 2-minute TTL. -/
def set_product (st : CacheState) (sku : String) (product : ProductResponse)
    (now : ℤ) : CacheState :=
  fun k => if k = sku then
      some { value := { product with cache_hit := false },
             expires_at := now + CACHE_TTL_SECONDS }
    else st k

/-- cache_service.py CacheService.get_product: returns the stored response
with cache_hit forced true, or none on miss or after expiry. -/
def get_product (st : CacheState) (sku : String) (now : ℤ) :
    Option ProductResponse :=
  match st sku with
  | some e => if now < e.expires_at then some { e.value with cache_hit := true } else none
  | none => none

/-! ## PerformanceTracker (cache_service.py update_vendor_performance) -/

/-- models.py VendorPerformance. -/
structure VendorPerformance where
  vendor_name : String
  total_requests : ℕ
  successful_requests : ℕ
  failed_requests : ℕ
  avg_latency_ms : ℚ
  last_failure : Option ℤ
deriving DecidableEq, Repr

/-- The zero-initialized stats that get_vendor_performance returns when
nothing is persisted yet. -/
def initVendorPerformance (v : String) : VendorPerformance :=
  { vendor_name := v, total_requests := 0, successful_requests := 0,
    failed_requests := 0, avg_latency_ms := 0, last_failure := none }

/-- cache_service.py CacheService.update_vendor_performance: one recorded
call outcome. -/
def update_vendor_performance (perf : VendorPerformance) (success : Bool)
    (latency_ms : ℚ) (now : ℤ) : VendorPerformance :=
  let p1 := { perf with total_requests := perf.total_requests + 1 }
  let p2 := if success then
      { p1 with successful_requests := p1.successful_requests + 1 }
    else
      { p1 with failed_requests := p1.failed_requests + 1, last_failure := some now }
  let avg := if p2.total_requests = 1 then latency_ms
    else (p2.avg_latency_ms * ((p2.total_requests : ℚ) - 1) + latency_ms) /
      (p2.total_requests : ℚ)
  { p2 with avg_latency_ms := avg }

/-- Folds a sequence of recorded outcomes (success, latency, time) from the
zero-initialized stats. -/
def run_performance (v : String) (events : List (Bool × ℚ × ℤ)) :
    VendorPerformance :=
  events.foldl (fun p e => update_vendor_performance p e.1 e.2.1 e.2.2)
    (initVendorPerformance v)

/-! ## Vendor adapters (vendor_service.py)

The raw vendor payloads carry timestamp strings that the Python code hands
to the standard library (datetime.fromisoformat, datetime.strptime).  Those
library parsers are external to this repository, so a timestamp field is
embedded as the outcome of that parse: `some ts` (integer seconds) when the
string parses, `none` when the library call would raise.  The price string
of vendor 2 and the stock-level string of vendor 3 are parsed by code in
this repository (via float() and int()), so they stay strings and genuine
parsers are defined for them. -/

/-- Numeric value of a digit character. -/
def charDigit (c : Char) : ℕ := c.toNat - 48

/-- Parses a non-empty all-digit character list as a natural number. -/
def parseNatDigits (cs : List Char) : Option ℕ :=
  if cs.isEmpty then none
  else
    cs.foldl
      (fun acc c =>
        match acc with
        | none => none
        | some n => if c.isDigit then some (10 * n + charDigit c) else none)
      (some 0)

/-- Model of Python int(s) on the decimal fragment: optional sign followed
by digits; anything else fails. -/
def parseIntStr (s : String) : Option ℤ :=
  match s.toList with
  | [] => none
  | '-' :: rest => (parseNatDigits rest).map (fun n => -(n : ℤ))
  | '+' :: rest => (parseNatDigits rest).map (fun n => (n : ℤ))
  | cs => (parseNatDigits cs).map (fun n => (n : ℤ))

/-- Unsigned decimal numeral, possibly with one dot: digits, digits.digits,
digits., or .digits. -/
def parseUnsignedDecimal (cs : List Char) : Option ℚ :=
  let w := cs.takeWhile (fun c => c ≠ '.')
  let rest := cs.dropWhile (fun c => c ≠ '.')
  match rest with
  | [] => (parseNatDigits w).map (fun n => (n : ℚ))
  | _ :: f =>
    if f.contains '.' then none
    else if w.isEmpty && f.isEmpty then none
    else
      let wn := if w.isEmpty then some 0 else parseNatDigits w
      let fn := if f.isEmpty then some 0 else parseNatDigits f
      match wn, fn with
      | some a, some b => some ((a : ℚ) + (b : ℚ) / (10 : ℚ) ^ f.length)
      | _, _ => none

/-- Model of Python float(s) on the decimal fragment the vendor price
strings use: optional sign and a decimal numeral. -/
def parsePyFloat (s : String) : Option ℚ :=
  match s.toList with
  | '-' :: rest => (parseUnsignedDecimal rest).map Neg.neg
  | '+' :: rest => parseUnsignedDecimal rest
  | cs => parseUnsignedDecimal cs

/-- Python cost_per_unit.replace applied with the dollar sign and the empty
string: removes every dollar sign. -/
def stripDollar (s : String) : String :=
  String.mk (s.toList.filter (fun c => c ≠ '$'))

/-- models.py Vendor1Response.  `last_updated` is the outcome of
datetime.fromisoformat on the ISO-8601 string: none when that call would
raise. -/
structure Vendor1Response where
  product_id : String
  availability : String
  inventory_count : Option ℤ
  unit_price : ℚ
  last_updated : Option ℤ
deriving DecidableEq, Repr

/-- vendor_service.py VendorService._normalize_vendor1_response.
`now` is the value of datetime.now() at the call, in seconds.  An
unparseable last_updated string makes fromisoformat raise, modelled as
Except.error. -/
def normalize_vendor1_response (r : Vendor1Response) (now : ℤ) :
    Except Unit NormalizedProduct :=
  let stock : ℤ :=
    if r.inventory_count = none ∧ r.availability = "IN_STOCK" then 5
    else if r.availability = "IN_STOCK" then r.inventory_count.getD 0
    else 0
  match r.last_updated with
  | none => Except.error ()
  | some ts =>
    Except.ok
      { sku := r.product_id, vendor_name := "vendor1", stock := stock,
        price := r.unit_price, timestamp := ts,
        is_valid := decide (0 < r.unit_price) &&
          decide (now - ts ≤ DATA_FRESHNESS_SECONDS) }

/-- models.py Vendor2Response.  `timestamp` is already unix seconds in the
source. -/
structure Vendor2Response where
  sku : String
  stock_status : String
  quantity_on_hand : ℤ
  cost_per_unit : String
  timestamp : ℤ
deriving DecidableEq, Repr

/-- vendor_service.py VendorService._normalize_vendor2_response.  The price
parse failure is caught in the source and degrades to price 0. -/
def normalize_vendor2_response (r : Vendor2Response) (now : ℤ) :
    NormalizedProduct :=
  let price : ℚ := (parsePyFloat (stripDollar r.cost_per_unit)).getD 0
  let stock : ℤ := if r.stock_status = "AVAILABLE" then r.quantity_on_hand else 0
  { sku := r.sku, vendor_name := "vendor2", stock := stock, price := price,
    timestamp := r.timestamp,
    is_valid := decide (0 < price) &&
      decide (now - r.timestamp ≤ DATA_FRESHNESS_SECONDS) }

/-- models.py Vendor3Response.  `data_timestamp` is the outcome of
datetime.strptime on the string: none when that call would raise. -/
structure Vendor3Response where
  item_code : String
  status : String
  stock_level : Option String
  price_amount : Option ℚ
  data_timestamp : Option ℤ
deriving DecidableEq, Repr

/-- vendor_service.py lines 219-227: the stock computation of
_normalize_vendor3_response, including the Python truthiness test on the
stock_level string (an absent or empty string leaves stock 0). -/
def vendor3_stock (status : String) (stock_level : Option String) : ℤ :=
  if status = "ACTIVE" then
    match stock_level with
    | none => 0
    | some s =>
      if s = "" then 0
      else
        match parseIntStr s with
        | some n => n
        | none => if s = "LOW" then 3 else if s = "HIGH" then 25 else 0
  else 0

/-- vendor_service.py VendorService._normalize_vendor3_response.  An
unparseable data_timestamp string makes strptime raise, modelled as
Except.error. -/
def normalize_vendor3_response (r : Vendor3Response) (now : ℤ) :
    Except Unit NormalizedProduct :=
  let stock := vendor3_stock r.status r.stock_level
  match r.data_timestamp with
  | none => Except.error ()
  | some ts =>
    Except.ok
      { sku := r.item_code, vendor_name := "vendor3", stock := stock,
        price := r.price_amount.getD 0, timestamp := ts,
        is_valid := decide (0 < r.price_amount.getD 0) &&
          decide (now - ts ≤ DATA_FRESHNESS_SECONDS) }

/-- The fields of a NormalizedProduct other than the validity flag. -/
def core_fields (p : NormalizedProduct) : String × String × ℤ × ℚ × ℤ :=
  (p.sku, p.vendor_name, p.stock, p.price, p.timestamp)

/-- Division-free version of the enhanced selection rules: the premium test
`threshold < (price − baseline) / baseline` is replaced by
`threshold × baseline < price − baseline`, which performs no division.
Used to express that the division in the source is benign. -/
def apply_enhanced_selection_rules_nodiv (products : List NormalizedProduct) :
    NormalizedProduct :=
  if products.length = 1 then products.headI
  else
    let sorted := sortByPrice products
    let lowest := sorted.headI
    (sorted.tail.find? (fun p =>
        decide (PRICE_DIFFERENCE_THRESHOLD * lowest.price < p.price - lowest.price) &&
        decide (lowest.stock < p.stock))).getD lowest

/-- select_best_vendor with the division-free selection rules. -/
def select_best_vendor_nodiv (products : List NormalizedProduct) : ProductResponse :=
  if products.isEmpty then
    { sku := "UNKNOWN", best_vendor := none, price := none, stock := none,
      status := "OUT_OF_STOCK", vendors_checked := 0, cache_hit := false }
  else
    let sku := products.headI.sku
    let vendors_checked := products.length
    let valid_products := products.filter (fun p => p.is_valid)
    if valid_products.isEmpty then
      { sku := sku, best_vendor := none, price := none, stock := none,
        status := "OUT_OF_STOCK", vendors_checked := vendors_checked, cache_hit := false }
    else
      let in_stock_products := valid_products.filter (fun p => decide (0 < p.stock))
      if in_stock_products.isEmpty then
        { sku := sku, best_vendor := none, price := none, stock := none,
          status := "OUT_OF_STOCK", vendors_checked := vendors_checked, cache_hit := false }
      else
        let best := apply_enhanced_selection_rules_nodiv in_stock_products
        { sku := sku, best_vendor := some best.vendor_name, price := some best.price,
          stock := some best.stock, status := "AVAILABLE",
          vendors_checked := vendors_checked, cache_hit := false }

/-! ## Helper lemmas -/

/-- Permutations have equal isEmpty flags. -/
theorem perm_isEmpty_eq {l l' : List NormalizedProduct} (h : l.Perm l') :
    l.isEmpty = l'.isEmpty := by
  have hlen := h.length_eq
  cases l <;> cases l' <;> simp_all

/-! ## C2: OUT_OF_STOCK characterization and vendorsChecked -/

/-- C2: for every list of offers, the response status is OUT_OF_STOCK iff no
offer is valid with positive stock, and vendors_checked equals the length of
the input list (0 for the empty list). -/
theorem select_out_of_stock_iff (l : List NormalizedProduct) :
    ((select_best_vendor l).status = "OUT_OF_STOCK" ↔
      ∀ p ∈ l, ¬(p.is_valid = true ∧ 0 < p.stock)) ∧
    (select_best_vendor l).vendors_checked = l.length := by
  simp only [select_best_vendor]
  split_ifs with h1 h2 h3
  · rw [List.isEmpty_iff] at h1
    subst h1
    simp
  · rw [List.isEmpty_iff, List.filter_eq_nil_iff] at h2
    refine ⟨⟨fun _ p hp hpc => h2 p hp hpc.1, fun _ => rfl⟩, rfl⟩
  · rw [List.isEmpty_iff, List.filter_eq_nil_iff] at h3
    refine ⟨⟨fun _ p hp hpc => ?_, fun _ => rfl⟩, rfl⟩
    have hmem : p ∈ (l.filter (fun p => p.is_valid)) :=
      List.mem_filter.mpr ⟨hp, hpc.1⟩
    exact h3 p hmem (decide_eq_true hpc.2)
  · rw [List.isEmpty_iff] at h3
    have hne : "AVAILABLE" ≠ "OUT_OF_STOCK" := by decide
    refine ⟨⟨fun hcontra => absurd hcontra hne, fun hall => ?_⟩, rfl⟩
    exfalso
    obtain ⟨p, hp⟩ := List.exists_mem_of_ne_nil _ h3
    have h5 := List.mem_filter.mp hp
    have h6 := List.mem_filter.mp h5.1
    exact hall p h6.1 ⟨h6.2, of_decide_eq_true h5.2⟩

/-! ## C8: success while CLOSED with zero failures is a no-op -/

/-- C8: a successful call through the circuit breaker while the persisted
state is CLOSED with failure_count 0 returns the result, leaves the state
bit-identical, and performs no persistence write. -/
theorem circuit_closed_success_frame (s : CircuitBreakerState) (now : ℤ)
    (h1 : s.state = CircuitState.CLOSED) (h2 : s.failure_count = 0) :
    circuit_call s now true =
      { st := s, invoked := true, returned := true, wrote := false } := by
  simp [circuit_call, circuit_on_result, h1, h2]

/-- Witness for C8 at a concrete state. -/
theorem circuit_closed_success_frame_witness :
    circuit_call (initCircuitState ("vendor1")) 0 true =
      { st := initCircuitState ("vendor1"), invoked := true, returned := true,
        wrote := false } :=
  circuit_closed_success_frame (initCircuitState ("vendor1")) 0 rfl rfl

/-! ## C3: three consecutive failures open the circuit -/

/-- C3: starting from the initial CLOSED state, each of the first two
failures leaves the circuit CLOSED, the third failure transitions it to OPEN
with next_attempt_time = now + 30s cooldown, and afterwards every call made
before that reopen time short-circuits: the state is unchanged, the wrapped
function is not invoked (so no vendor call is recorded), nothing is
returned, and nothing is written -- for a single call and for any sequence
of such calls. -/
theorem circuit_opens_after_three_failures (v : String) (t1 t2 t3 : ℤ) :
    circuit_call (initCircuitState v) t1 false =
      { st := ⟨v, .CLOSED, 1, some t1, none⟩, invoked := true,
        returned := false, wrote := true } ∧
    circuit_call ⟨v, .CLOSED, 1, some t1, none⟩ t2 false =
      { st := ⟨v, .CLOSED, 2, some t2, none⟩, invoked := true,
        returned := false, wrote := true } ∧
    circuit_call ⟨v, .CLOSED, 2, some t2, none⟩ t3 false =
      { st := ⟨v, .OPEN, 3, some t3, some (t3 + CIRCUIT_COOLDOWN_SECONDS)⟩,
        invoked := true, returned := false, wrote := true } ∧
    (∀ t success, t < t3 + CIRCUIT_COOLDOWN_SECONDS →
      circuit_call ⟨v, .OPEN, 3, some t3, some (t3 + CIRCUIT_COOLDOWN_SECONDS)⟩ t success =
        { st := ⟨v, .OPEN, 3, some t3, some (t3 + CIRCUIT_COOLDOWN_SECONDS)⟩,
          invoked := false, returned := false, wrote := false }) ∧
    (∀ calls : List (ℤ × Bool), (∀ c ∈ calls, c.1 < t3 + CIRCUIT_COOLDOWN_SECONDS) →
      circuit_run ⟨v, .OPEN, 3, some t3, some (t3 + CIRCUIT_COOLDOWN_SECONDS)⟩ calls =
        ⟨v, .OPEN, 3, some t3, some (t3 + CIRCUIT_COOLDOWN_SECONDS)⟩) := by
  have hshort : ∀ t success, t < t3 + CIRCUIT_COOLDOWN_SECONDS →
      circuit_call ⟨v, .OPEN, 3, some t3, some (t3 + CIRCUIT_COOLDOWN_SECONDS)⟩ t success =
        { st := ⟨v, .OPEN, 3, some t3, some (t3 + CIRCUIT_COOLDOWN_SECONDS)⟩,
          invoked := false, returned := false, wrote := false } := by
    intro t success ht
    have hx : ¬ (t3 + CIRCUIT_COOLDOWN_SECONDS ≤ t) := not_le.mpr ht
    simp [circuit_call, hx]
  refine ⟨rfl, rfl, rfl, hshort, ?_⟩
  intro calls hcalls
  induction calls with
  | nil => rfl
  | cons c cs ih =>
    have hc := hcalls c (List.mem_cons_self c cs)
    have hstep := hshort c.1 c.2 hc
    have : circuit_run ⟨v, .OPEN, 3, some t3, some (t3 + CIRCUIT_COOLDOWN_SECONDS)⟩ (c :: cs) =
        circuit_run (circuit_call ⟨v, .OPEN, 3, some t3,
          some (t3 + CIRCUIT_COOLDOWN_SECONDS)⟩ c.1 c.2).st cs := rfl
    rw [this, hstep]
    exact ih (fun c' hc' => hcalls c' (List.mem_cons_of_mem c hc'))

/-- Witness for C3: instantiated at concrete times, with a concrete
short-circuited call and a concrete sequence of short-circuited calls. -/
theorem circuit_opens_after_three_failures_witness :
    circuit_call ⟨("vendor1"), .OPEN, 3, some 20, some (20 + CIRCUIT_COOLDOWN_SECONDS)⟩ 25 true =
      { st := ⟨("vendor1"), .OPEN, 3, some 20, some (20 + CIRCUIT_COOLDOWN_SECONDS)⟩,
        invoked := false, returned := false, wrote := false } ∧
    circuit_run ⟨("vendor1"), .OPEN, 3, some 20, some (20 + CIRCUIT_COOLDOWN_SECONDS)⟩
        [(25, true), (30, false), (49, true)] =
      ⟨("vendor1"), .OPEN, 3, some 20, some (20 + CIRCUIT_COOLDOWN_SECONDS)⟩ :=
  ⟨(circuit_opens_after_three_failures ("vendor1") 0 10 20).2.2.2.1 25 true (by decide),
   (circuit_opens_after_three_failures ("vendor1") 0 10 20).2.2.2.2
     [(25, true), (30, false), (49, true)] (by decide)⟩

/-! ## C7: cache round-trip -/

/-- C7: set_product stores the response with cache_hit forced false and a
2-minute expiry; a get_product within the TTL returns the response equal to
the stored one in every field except cache_hit, which is forced true; a
get_product at or after expiry returns none. -/
theorem cache_roundtrip (st : CacheState) (sku : String) (r : ProductResponse)
    (tset tget : ℤ) :
    (set_product st sku r tset) sku =
      some { value := { r with cache_hit := false },
             expires_at := tset + CACHE_TTL_SECONDS } ∧
    (tget < tset + CACHE_TTL_SECONDS →
      get_product (set_product st sku r tset) sku tget =
        some { r with cache_hit := true }) ∧
    (tset + CACHE_TTL_SECONDS ≤ tget →
      get_product (set_product st sku r tset) sku tget = none) := by
  refine ⟨by simp [set_product], fun h => ?_, fun h => ?_⟩
  · simp [get_product, set_product, h]
  · have hx : ¬ (tget < tset + CACHE_TTL_SECONDS) := not_lt.mpr h
    simp [get_product, set_product, hx]

/-- Witness for C7 at a concrete store, response and times inside and
outside the TTL. -/
theorem cache_roundtrip_witness :
    get_product
        (set_product (fun _ => none) ("ABC123")
          { sku := "ABC123", best_vendor := some "vendor2", price := some (37 / 2),
            stock := some 15, status := "AVAILABLE", vendors_checked := 3,
            cache_hit := false } 0)
        ("ABC123") 60 =
      some { sku := "ABC123", best_vendor := some "vendor2", price := some (37 / 2),
             stock := some 15, status := "AVAILABLE", vendors_checked := 3,
             cache_hit := true } ∧
    get_product
        (set_product (fun _ => none) ("ABC123")
          { sku := "ABC123", best_vendor := some "vendor2", price := some (37 / 2),
            stock := some 15, status := "AVAILABLE", vendors_checked := 3,
            cache_hit := false } 0)
        ("ABC123") 120 = none :=
  ⟨(cache_roundtrip (fun _ => none) ("ABC123")
      { sku := "ABC123", best_vendor := some "vendor2", price := some (37 / 2),
        stock := some 15, status := "AVAILABLE", vendors_checked := 3,
        cache_hit := false } 0 60).2.1 (by decide),
   (cache_roundtrip (fun _ => none) ("ABC123")
      { sku := "ABC123", best_vendor := some "vendor2", price := some (37 / 2),
        stock := some 15, status := "AVAILABLE", vendors_checked := 3,
        cache_hit := false } 0 120).2.2 (by decide)⟩

/-! ## C9: performance counters invariant -/

/-- One update preserves successes + failures = totalCalls. -/
theorem update_vendor_performance_preserves (p : VendorPerformance)
    (success : Bool) (lat : ℚ) (t : ℤ)
    (h : p.successful_requests + p.failed_requests = p.total_requests) :
    (update_vendor_performance p success lat t).successful_requests +
      (update_vendor_performance p success lat t).failed_requests =
      (update_vendor_performance p success lat t).total_requests := by
  cases success <;> simp [update_vendor_performance] <;> omega

/-- C9: from the zero-initialized stats, after any sequence of recorded
outcomes, successes + failures = totalCalls; moreover each single recorded
outcome increments total_requests by exactly one and exactly the matching
one of successes / failures by exactly one. -/
theorem performance_counts_invariant (v : String) (events : List (Bool × ℚ × ℤ)) :
    (run_performance v events).successful_requests +
      (run_performance v events).failed_requests =
      (run_performance v events).total_requests ∧
    (∀ p lat t,
      (update_vendor_performance p true lat t).total_requests = p.total_requests + 1 ∧
      (update_vendor_performance p true lat t).successful_requests =
        p.successful_requests + 1 ∧
      (update_vendor_performance p true lat t).failed_requests = p.failed_requests) ∧
    (∀ p lat t,
      (update_vendor_performance p false lat t).total_requests = p.total_requests + 1 ∧
      (update_vendor_performance p false lat t).successful_requests =
        p.successful_requests ∧
      (update_vendor_performance p false lat t).failed_requests = p.failed_requests + 1) := by
  refine ⟨?_, fun p lat t => ⟨rfl, rfl, rfl⟩, fun p lat t => ⟨rfl, rfl, rfl⟩⟩
  have aux : ∀ (es : List (Bool × ℚ × ℤ)) (p : VendorPerformance),
      p.successful_requests + p.failed_requests = p.total_requests →
      (es.foldl (fun p e => update_vendor_performance p e.1 e.2.1 e.2.2) p).successful_requests +
        (es.foldl (fun p e => update_vendor_performance p e.1 e.2.1 e.2.2) p).failed_requests =
        (es.foldl (fun p e => update_vendor_performance p e.1 e.2.1 e.2.2) p).total_requests := by
    intro es
    induction es with
    | nil => intro p h; exact h
    | cons e es ih =>
      intro p h
      exact ih _ (update_vendor_performance_preserves p e.1 e.2.1 e.2.2 h)
  exact aux events (initVendorPerformance v) rfl

/-! ## C1: the price-stock selection rule -/

/-- On a non-empty list the length-1 special case of the enhanced selection
rules coincides with the general sorted scan, so the function equals the
spec-side winner. -/
theorem apply_rules_eq_winner (l : List NormalizedProduct) (h : l ≠ []) :
    apply_enhanced_selection_rules l = selection_rule_winner l := by
  by_cases h1 : l.length = 1
  · obtain ⟨a, rfl⟩ := List.length_eq_one.mp h1
    rfl
  · simp only [apply_enhanced_selection_rules, selection_rule_winner, if_neg h1]

/-- C1: on a non-empty list of offers that are all valid with positive
stock, select_best_vendor returns status AVAILABLE, vendors_checked = the
list length, and the winner fields of the price-stock rule: the first offer
in ascending (stable) price order whose price exceeds the lowest price by
strictly more than the 10% threshold of the lowest price and whose stock
strictly exceeds the lowest-priced offer's stock, defaulting to the
lowest-priced offer. -/
theorem select_best_vendor_price_stock_rule (l : List NormalizedProduct)
    (hne : l ≠ []) (hval : ∀ p ∈ l, p.is_valid = true)
    (hstock : ∀ p ∈ l, 0 < p.stock) :
    select_best_vendor l =
      { sku := l.headI.sku,
        best_vendor := some (selection_rule_winner l).vendor_name,
        price := some (selection_rule_winner l).price,
        stock := some (selection_rule_winner l).stock,
        status := "AVAILABLE", vendors_checked := l.length,
        cache_hit := false } := by
  have hf1 : l.filter (fun p => p.is_valid) = l := List.filter_eq_self.mpr hval
  have hf2 : l.filter (fun p => decide (0 < p.stock)) = l :=
    List.filter_eq_self.mpr (fun p hp => decide_eq_true (hstock p hp))
  have hie : l.isEmpty = false := by
    cases l with
    | nil => exact absurd rfl hne
    | cons a t => rfl
  simp only [select_best_vendor, hie, hf1, hf2, Bool.false_eq_true, if_false,
    apply_rules_eq_winner l hne]

/-- Witness for C1: scenario 2 of the spec, offers (A, 10.00, stock 5) and
(B, 12.00, stock 20): the 20% premium with higher stock makes B win. -/
theorem select_best_vendor_price_stock_rule_witness :
    select_best_vendor
        [⟨"S1", "vendorA", 5, 10, 0, true⟩, ⟨"S1", "vendorB", 20, 12, 0, true⟩] =
      { sku := ([⟨"S1", "vendorA", 5, 10, 0, true⟩,
          (⟨"S1", "vendorB", 20, 12, 0, true⟩ : NormalizedProduct)] : List NormalizedProduct).headI.sku,
        best_vendor := some (selection_rule_winner
          [⟨"S1", "vendorA", 5, 10, 0, true⟩, ⟨"S1", "vendorB", 20, 12, 0, true⟩]).vendor_name,
        price := some (selection_rule_winner
          [⟨"S1", "vendorA", 5, 10, 0, true⟩, ⟨"S1", "vendorB", 20, 12, 0, true⟩]).price,
        stock := some (selection_rule_winner
          [⟨"S1", "vendorA", 5, 10, 0, true⟩, ⟨"S1", "vendorB", 20, 12, 0, true⟩]).stock,
        status := "AVAILABLE",
        vendors_checked := ([⟨"S1", "vendorA", 5, 10, 0, true⟩,
          (⟨"S1", "vendorB", 20, 12, 0, true⟩ : NormalizedProduct)] : List NormalizedProduct).length,
        cache_hit := false } ∧
    selection_rule_winner
        [⟨"S1", "vendorA", 5, 10, 0, true⟩, ⟨"S1", "vendorB", 20, 12, 0, true⟩] =
      ⟨"S1", "vendorB", 20, 12, 0, true⟩ :=
  ⟨select_best_vendor_price_stock_rule
      [⟨"S1", "vendorA", 5, 10, 0, true⟩, ⟨"S1", "vendorB", 20, 12, 0, true⟩]
      (by decide) (by decide) (by decide),
   by norm_num [selection_rule_winner, sortByPrice, List.insertionSort,
     List.orderedInsert, priceLE, PRICE_DIFFERENCE_THRESHOLD, List.find?]⟩

/-! ## C10: the division in the selection rule is safe -/

/-- When the baseline price is positive, the enhanced selection rules agree
with their division-free version. -/
theorem apply_rules_nodiv_eq (f : List NormalizedProduct)
    (hp0 : f ≠ [] → 0 < (sortByPrice f).headI.price) :
    apply_enhanced_selection_rules f = apply_enhanced_selection_rules_nodiv f := by
  by_cases h1 : f.length = 1
  · simp [apply_enhanced_selection_rules, apply_enhanced_selection_rules_nodiv, h1]
  · by_cases hne : f = []
    · subst hne; rfl
    · have hpos := hp0 hne
      have hpredeq : (fun p : NormalizedProduct =>
            decide (PRICE_DIFFERENCE_THRESHOLD <
              (p.price - (sortByPrice f).headI.price) / (sortByPrice f).headI.price) &&
            decide ((sortByPrice f).headI.stock < p.stock)) =
          (fun p : NormalizedProduct =>
            decide (PRICE_DIFFERENCE_THRESHOLD * (sortByPrice f).headI.price <
              p.price - (sortByPrice f).headI.price) &&
            decide ((sortByPrice f).headI.stock < p.stock)) := by
        funext p
        have hiff : (PRICE_DIFFERENCE_THRESHOLD <
            (p.price - (sortByPrice f).headI.price) / (sortByPrice f).headI.price) ↔
            (PRICE_DIFFERENCE_THRESHOLD * (sortByPrice f).headI.price <
              p.price - (sortByPrice f).headI.price) := lt_div_iff₀ hpos
        rw [decide_eq_decide.mpr hiff]
      simp only [apply_enhanced_selection_rules, apply_enhanced_selection_rules_nodiv,
        if_neg h1]
      rw [hpredeq]

/-- C10: if every valid offer has a strictly positive price, the baseline
divisor of the selection rule (the head of the price-sorted valid in-stock
offers) is strictly positive whenever a division is reached, and
select_best_vendor computes the same total result as the division-free
variant. -/
theorem select_best_vendor_division_safe (l : List NormalizedProduct)
    (hpos : ∀ p ∈ l, p.is_valid = true → 0 < p.price) :
    (in_stock_valid l ≠ [] → 0 < (sortByPrice (in_stock_valid l)).headI.price) ∧
    select_best_vendor l = select_best_vendor_nodiv l := by
  have hbase : in_stock_valid l ≠ [] → 0 < (sortByPrice (in_stock_valid l)).headI.price := by
    intro hne
    have hsne : sortByPrice (in_stock_valid l) ≠ [] := by
      intro hcon
      apply hne
      have hp := List.perm_insertionSort priceLE (in_stock_valid l)
      rw [show sortByPrice (in_stock_valid l) = List.insertionSort priceLE (in_stock_valid l) from rfl] at hcon
      rw [hcon] at hp
      exact hp.nil_eq.symm
    obtain ⟨a, t, hat⟩ := List.exists_cons_of_ne_nil hsne
    have hmem : (sortByPrice (in_stock_valid l)).headI ∈ in_stock_valid l := by
      have ha : (sortByPrice (in_stock_valid l)).headI ∈ sortByPrice (in_stock_valid l) := by
        rw [hat]
        exact List.mem_cons_self a t
      exact ((List.perm_insertionSort priceLE (in_stock_valid l)).mem_iff).mp ha
    have h2 := List.mem_filter.mp hmem
    have h3 := List.mem_filter.mp h2.1
    exact hpos _ h3.1 h3.2
  refine ⟨hbase, ?_⟩
  simp only [select_best_vendor, select_best_vendor_nodiv]
  by_cases hemp : l.isEmpty
  · rw [if_pos hemp, if_pos hemp]
  · rw [if_neg hemp, if_neg hemp]
    by_cases hv : (l.filter (fun p => p.is_valid)).isEmpty
    · rw [if_pos hv, if_pos hv]
    · rw [if_neg hv, if_neg hv]
      by_cases hs : ((l.filter (fun p => p.is_valid)).filter
          (fun p => decide (0 < p.stock))).isEmpty
      · rw [if_pos hs, if_pos hs]
      · rw [if_neg hs, if_neg hs]
        have hfne : in_stock_valid l ≠ [] := by
          rw [List.isEmpty_iff] at hs
          exact hs
        have hrules := apply_rules_nodiv_eq (in_stock_valid l) (fun _ => hbase hfne)
        rw [in_stock_valid] at hrules
        rw [hrules]

/-- Witness for C10 at a concrete offer list with positive prices. -/
theorem select_best_vendor_division_safe_witness :
    (in_stock_valid [⟨"S1", "vendorA", 5, 10, 0, true⟩] ≠ [] →
      0 < (sortByPrice (in_stock_valid [⟨"S1", "vendorA", 5, 10, 0, true⟩])).headI.price) ∧
    select_best_vendor [⟨"S1", "vendorA", 5, 10, 0, true⟩] =
      select_best_vendor_nodiv [⟨"S1", "vendorA", 5, 10, 0, true⟩] :=
  select_best_vendor_division_safe [⟨"S1", "vendorA", 5, 10, 0, true⟩]
    (by intro p hp hval
        have : p = ⟨"S1", "vendorA", 5, 10, 0, true⟩ := by
          simpa using hp
        rw [this]
        norm_num)

/-! ## C5: normalization determinism -/

/-- C5 counterexample: the same vendor-1 payload normalized at two
different current times yields different offers (the freshness check makes
is_valid time-dependent), so normalize is not a function of the payload
alone. -/
theorem normalize_not_time_invariant :
    normalize_vendor1_response ⟨"P1", "IN_STOCK", some 10, 5, some 0⟩ 0 ≠
      normalize_vendor1_response ⟨"P1", "IN_STOCK", some 10, 5, some 0⟩ 1000000 := by
  simp only [normalize_vendor1_response]
  intro h
  have hv := congrArg (fun e => match e with
    | Except.ok p => p.is_valid
    | Except.error _ => false) h
  simp [DATA_FRESHNESS_SECONDS] at hv

/-- C5 amended: each adapter is deterministic in the payload and the
current time together, and every field except the validity flag is
independent of the current time; only is_valid depends on now, through the
freshness comparison. -/
theorem normalize_time_dependence (r1 : Vendor1Response) (r2 : Vendor2Response)
    (r3 : Vendor3Response) (t t' : ℤ) :
    (normalize_vendor1_response r1 t).map core_fields =
      (normalize_vendor1_response r1 t').map core_fields ∧
    core_fields (normalize_vendor2_response r2 t) =
      core_fields (normalize_vendor2_response r2 t') ∧
    (normalize_vendor3_response r3 t).map core_fields =
      (normalize_vendor3_response r3 t').map core_fields := by
  refine ⟨?_, rfl, ?_⟩
  · cases h : r1.last_updated <;>
      simp [normalize_vendor1_response, h, core_fields, Except.map]
  · cases h : r3.data_timestamp <;>
      simp [normalize_vendor3_response, h, core_fields, Except.map]

/-! ## C6: malformed payload handling -/

/-- C6 counterexample: a vendor-3 payload whose stock-level string parses
neither as an integer nor as LOW or HIGH still yields an offer with
is_valid = true (stock falls back to 0, validity is untouched), and a
vendor-1 payload whose timestamp string cannot be parsed makes the adapter
raise instead of returning an offer marked invalid. -/
theorem malformed_payload_counterexample :
    (normalize_vendor3_response ⟨"X1", "ACTIVE", some ("MEDIUM"), some 5, some 0⟩ 0 =
      Except.ok ⟨"X1", "vendor3", 0, 5, 0, true⟩) ∧
    parseIntStr ("MEDIUM") = none ∧
    normalize_vendor1_response ⟨"P1", "IN_STOCK", some 10, 5, none⟩ 0 =
      Except.error () := by
  have hpi : parseIntStr ("MEDIUM") = none := by decide
  refine ⟨?_, hpi, by simp [normalize_vendor1_response]⟩
  simp only [normalize_vendor3_response, vendor3_stock, hpi]
  norm_num [DATA_FRESHNESS_SECONDS]
  decide

/-- C6 amended: no field parse failure escapes as an uncaught error from a
place the source guards, and each failure degrades exactly as the code
does: an unparseable vendor-2 price string gives price 0 and is_valid
false; a vendor-3 stock-level string that is neither an integer nor LOW nor
HIGH gives stock 0 with is_valid untouched; an unparseable timestamp
string (vendor 1 or vendor 3) raises, so no offer at all is produced. -/
theorem malformed_payload_handling (r1 : Vendor1Response) (r2 : Vendor2Response)
    (r3 : Vendor3Response) (now : ℤ) (s : String) :
    (parsePyFloat (stripDollar r2.cost_per_unit) = none →
      (normalize_vendor2_response r2 now).price = 0 ∧
      (normalize_vendor2_response r2 now).is_valid = false) ∧
    (r3.stock_level = some s → parseIntStr s = none → s ≠ "LOW" → s ≠ "HIGH" →
      vendor3_stock r3.status r3.stock_level = 0 ∧
      (∀ p, normalize_vendor3_response r3 now = Except.ok p → p.stock = 0)) ∧
    (r1.last_updated = none →
      normalize_vendor1_response r1 now = Except.error ()) ∧
    (r3.data_timestamp = none →
      normalize_vendor3_response r3 now = Except.error ()) := by
  refine ⟨fun hp => ?_, fun hsl hpi hlow hhigh => ?_, fun h1 => ?_, fun h3 => ?_⟩
  · constructor
    · simp [normalize_vendor2_response, hp]
    · simp [normalize_vendor2_response, hp]
  · have hstk : vendor3_stock r3.status r3.stock_level = 0 := by
      by_cases hact : r3.status = "ACTIVE"
      · by_cases hemp : s = ""
        · simp [vendor3_stock, hact, hsl, hemp]
        · simp [vendor3_stock, hact, hsl, hemp, hpi, hlow, hhigh]
      · simp [vendor3_stock, hact]
    refine ⟨hstk, fun p hp => ?_⟩
    cases hts : r3.data_timestamp with
    | none => simp [normalize_vendor3_response, hts] at hp
    | some ts =>
      simp only [normalize_vendor3_response, hts, Except.ok.injEq] at hp
      rw [← hp]
      exact hstk
  · simp [normalize_vendor1_response, h1]
  · simp [normalize_vendor3_response, h3]

/-- Witness for C6's amended theorem at concrete malformed payloads. -/
theorem malformed_payload_handling_witness :
    ((normalize_vendor2_response ⟨"S2", "AVAILABLE", 5, "oops", 0⟩ 0).price = 0 ∧
      (normalize_vendor2_response ⟨"S2", "AVAILABLE", 5, "oops", 0⟩ 0).is_valid = false) ∧
    (vendor3_stock ("ACTIVE") (some ("MEDIUM")) = 0) ∧
    normalize_vendor1_response ⟨"P1", "IN_STOCK", some 10, 5, none⟩ 0 = Except.error () ∧
    normalize_vendor3_response ⟨"X1", "ACTIVE", some ("20"), some 5, none⟩ 0 =
      Except.error () :=
  ⟨(malformed_payload_handling ⟨"P1", "IN_STOCK", some 10, 5, none⟩
      ⟨"S2", "AVAILABLE", 5, "oops", 0⟩
      ⟨"X1", "ACTIVE", some ("MEDIUM"), some 5, some 0⟩ 0 ("MEDIUM")).1 (by decide),
   ((malformed_payload_handling ⟨"P1", "IN_STOCK", some 10, 5, none⟩
      ⟨"S2", "AVAILABLE", 5, "oops", 0⟩
      ⟨"X1", "ACTIVE", some ("MEDIUM"), some 5, some 0⟩ 0 ("MEDIUM")).2.1 rfl
      (by decide) (by decide) (by decide)).1,
   (malformed_payload_handling ⟨"P1", "IN_STOCK", some 10, 5, none⟩
      ⟨"S2", "AVAILABLE", 5, "oops", 0⟩
      ⟨"X1", "ACTIVE", some ("MEDIUM"), some 5, some 0⟩ 0 ("MEDIUM")).2.2.1 rfl,
   (malformed_payload_handling ⟨"P1", "IN_STOCK", some 10, 5, none⟩
      ⟨"S2", "AVAILABLE", 5, "oops", 0⟩
      ⟨"X1", "ACTIVE", some ("20"), some 5, none⟩ 0 ("MEDIUM")).2.2.2 rfl⟩

/-! ## C4: permutation invariance -/

/-- When the prices are pairwise distinct, the stable sort of two permuted
lists coincides, so the enhanced selection rules agree on them. -/
theorem apply_rules_perm (l₁ l₂ : List NormalizedProduct) (h : l₁.Perm l₂)
    (hnd : (l₁.map (fun p => p.price)).Nodup) :
    apply_enhanced_selection_rules l₁ = apply_enhanced_selection_rules l₂ := by
  by_cases h1 : l₁.length = 1
  · have h2 : l₂.length = 1 := by rw [← h.length_eq]; exact h1
    obtain ⟨x, hx⟩ := List.length_eq_one.mp h1
    obtain ⟨y, hy⟩ := List.length_eq_one.mp h2
    subst hx hy
    have hxy : x = y := by simpa using List.perm_singleton.mp h
    rw [hxy]
  · have h2 : ¬ l₂.length = 1 := by rw [← h.length_eq]; exact h1
    have hsort : sortByPrice l₁ = sortByPrice l₂ := by
      have hperm : (sortByPrice l₁).Perm (sortByPrice l₂) :=
        (List.perm_insertionSort priceLE l₁).trans
          (h.trans (List.perm_insertionSort priceLE l₂).symm)
      have hs₁ : (sortByPrice l₁).Sorted priceLE := List.sorted_insertionSort priceLE l₁
      have hs₂ : (sortByPrice l₂).Sorted priceLE := List.sorted_insertionSort priceLE l₂
      have hnd₁ : ((sortByPrice l₁).map (fun p => p.price)).Nodup :=
        ((List.perm_insertionSort priceLE l₁).map (fun p => p.price)).nodup_iff.mpr hnd
      have hnd₀ : (l₂.map (fun p => p.price)).Nodup :=
        ((h.map (fun p => p.price)).nodup_iff).mp hnd
      have hnd₂ : ((sortByPrice l₂).map (fun p => p.price)).Nodup :=
        ((List.perm_insertionSort priceLE l₂).map (fun p => p.price)).nodup_iff.mpr hnd₀
      have hpw₁ : (sortByPrice l₁).Pairwise (fun p q => p.price ≠ q.price) :=
        List.pairwise_map.mp hnd₁
      have hpw₂ : (sortByPrice l₂).Pairwise (fun p q => p.price ≠ q.price) :=
        List.pairwise_map.mp hnd₂
      have hlt₁ : (sortByPrice l₁).Sorted priceLT :=
        (hs₁.and hpw₁).imp (fun hab => lt_of_le_of_ne hab.1 hab.2)
      have hlt₂ : (sortByPrice l₂).Sorted priceLT :=
        (hs₂.and hpw₂).imp (fun hab => lt_of_le_of_ne hab.1 hab.2)
      exact List.eq_of_perm_of_sorted hperm hlt₁ hlt₂
    simp only [apply_enhanced_selection_rules, if_neg h1, if_neg h2, hsort]

/-- C4 counterexample: two offers with equal prices but different vendors
and stock; the stable sort keeps arrival order for the price tie, so the
two permutations of the same offers select different winners.  Also, two
offers with different skus: the response sku is copied from the first
arriving offer, so permuting them changes the result as well. -/
theorem select_perm_counterexample :
    (([⟨"S1", "v1", 1, 10, 0, true⟩, ⟨"S1", "v2", 5, 10, 0, true⟩] :
        List NormalizedProduct).Perm
      [⟨"S1", "v2", 5, 10, 0, true⟩, ⟨"S1", "v1", 1, 10, 0, true⟩] ∧
    select_best_vendor [⟨"S1", "v1", 1, 10, 0, true⟩, ⟨"S1", "v2", 5, 10, 0, true⟩] ≠
      select_best_vendor [⟨"S1", "v2", 5, 10, 0, true⟩, ⟨"S1", "v1", 1, 10, 0, true⟩]) ∧
    (([⟨"SA", "v1", 1, 10, 0, true⟩, ⟨"SB", "v2", 5, 12, 0, true⟩] :
        List NormalizedProduct).Perm
      [⟨"SB", "v2", 5, 12, 0, true⟩, ⟨"SA", "v1", 1, 10, 0, true⟩] ∧
    select_best_vendor [⟨"SA", "v1", 1, 10, 0, true⟩, ⟨"SB", "v2", 5, 12, 0, true⟩] ≠
      select_best_vendor [⟨"SB", "v2", 5, 12, 0, true⟩, ⟨"SA", "v1", 1, 10, 0, true⟩]) := by
  refine ⟨⟨List.Perm.swap _ _ _, ?_⟩, List.Perm.swap _ _ _, ?_⟩
  · have e1 : (select_best_vendor
        [⟨"S1", "v1", 1, 10, 0, true⟩, ⟨"S1", "v2", 5, 10, 0, true⟩]).best_vendor =
        some ("v1") := by
      norm_num [select_best_vendor, apply_enhanced_selection_rules, sortByPrice,
        List.insertionSort, List.orderedInsert, priceLE, PRICE_DIFFERENCE_THRESHOLD,
        List.find?]
    have e2 : (select_best_vendor
        [⟨"S1", "v2", 5, 10, 0, true⟩, ⟨"S1", "v1", 1, 10, 0, true⟩]).best_vendor =
        some ("v2") := by
      norm_num [select_best_vendor, apply_enhanced_selection_rules, sortByPrice,
        List.insertionSort, List.orderedInsert, priceLE, PRICE_DIFFERENCE_THRESHOLD,
        List.find?]
    intro hcon
    rw [hcon, e2] at e1
    simp at e1
  · have e1 : (select_best_vendor
        [⟨"SA", "v1", 1, 10, 0, true⟩, ⟨"SB", "v2", 5, 12, 0, true⟩]).sku = "SA" := by
      norm_num [select_best_vendor, apply_enhanced_selection_rules, sortByPrice,
        List.insertionSort, List.orderedInsert, priceLE, PRICE_DIFFERENCE_THRESHOLD,
        List.find?]
    have e2 : (select_best_vendor
        [⟨"SB", "v2", 5, 12, 0, true⟩, ⟨"SA", "v1", 1, 10, 0, true⟩]).sku = "SB" := by
      norm_num [select_best_vendor, apply_enhanced_selection_rules, sortByPrice,
        List.insertionSort, List.orderedInsert, priceLE, PRICE_DIFFERENCE_THRESHOLD,
        List.find?]
    intro hcon
    rw [hcon, e2] at e1
    simp at e1

/-- C4 amended: the selection result is invariant under permutation of the
offer list provided all offers carry the same sku and the valid in-stock
offers have pairwise distinct prices (with a price tie among them, the
stable sort makes the winner depend on arrival order). -/
theorem select_best_vendor_perm (l₁ l₂ : List NormalizedProduct) (h : l₁.Perm l₂)
    (hsku : ∀ p ∈ l₁, ∀ q ∈ l₁, p.sku = q.sku)
    (hnd : ((in_stock_valid l₁).map (fun p => p.price)).Nodup) :
    select_best_vendor l₁ = select_best_vendor l₂ := by
  cases l₁ with
  | nil =>
    rw [← h.nil_eq]
  | cons a t₁ =>
    have hl₂ne : l₂ ≠ [] := by
      intro hc
      rw [hc] at h
      exact List.cons_ne_nil a t₁ h.eq_nil
    obtain ⟨b, t₂, hbt⟩ := List.exists_cons_of_ne_nil hl₂ne
    subst hbt
    have hbmem : b ∈ a :: t₁ := h.mem_iff.mpr (List.mem_cons_self b t₂)
    have hsku_ab : a.sku = b.sku := hsku a (List.mem_cons_self a t₁) b hbmem
    have hlen : (a :: t₁).length = (b :: t₂).length := h.length_eq
    have hvperm := h.filter (fun p => p.is_valid)
    have hsperm := hvperm.filter (fun p => decide (0 < p.stock))
    have hv_eq : ((a :: t₁).filter (fun p => p.is_valid)).isEmpty =
        ((b :: t₂).filter (fun p => p.is_valid)).isEmpty := perm_isEmpty_eq hvperm
    have hs_eq : (((a :: t₁).filter (fun p => p.is_valid)).filter
          (fun p => decide (0 < p.stock))).isEmpty =
        (((b :: t₂).filter (fun p => p.is_valid)).filter
          (fun p => decide (0 < p.stock))).isEmpty := perm_isEmpty_eq hsperm
    have hrules : apply_enhanced_selection_rules (in_stock_valid (a :: t₁)) =
        apply_enhanced_selection_rules (in_stock_valid (b :: t₂)) :=
      apply_rules_perm _ _ hsperm hnd
    rw [in_stock_valid, in_stock_valid] at hrules
    simp only [select_best_vendor]
    rw [if_neg (by simp : ¬ ((a :: t₁).isEmpty = true)),
      if_neg (by simp : ¬ ((b :: t₂).isEmpty = true))]
    by_cases hv : ((a :: t₁).filter (fun p => p.is_valid)).isEmpty
    · have hv₂ := hv_eq.symm.trans hv
      rw [if_pos hv, if_pos hv₂]
      simp [hsku_ab, hlen]
    · have hv₂ : ¬ ((b :: t₂).filter (fun p => p.is_valid)).isEmpty = true :=
        fun hb => hv (hv_eq.trans hb)
      rw [if_neg hv, if_neg hv₂]
      by_cases hs : (((a :: t₁).filter (fun p => p.is_valid)).filter
          (fun p => decide (0 < p.stock))).isEmpty
      · have hs₂ := hs_eq.symm.trans hs
        rw [if_pos hs, if_pos hs₂]
        simp [hsku_ab, hlen]
      · have hs₂ : ¬ (((b :: t₂).filter (fun p => p.is_valid)).filter
            (fun p => decide (0 < p.stock))).isEmpty = true :=
          fun hb => hs (hs_eq.trans hb)
        rw [if_neg hs, if_neg hs₂]
        simp only [List.filter_filter] at hrules
        simp [hsku_ab, hlen, hrules]

/-- Witness for C4's amended theorem: a permuted pair of distinct-price
offers with one shared sku. -/
theorem select_best_vendor_perm_witness :
    select_best_vendor [⟨"S1", "vendorA", 5, 10, 0, true⟩,
        ⟨"S1", "vendorB", 20, 12, 0, true⟩] =
      select_best_vendor [⟨"S1", "vendorB", 20, 12, 0, true⟩,
        ⟨"S1", "vendorA", 5, 10, 0, true⟩] :=
  select_best_vendor_perm
    [⟨"S1", "vendorA", 5, 10, 0, true⟩, ⟨"S1", "vendorB", 20, 12, 0, true⟩]
    [⟨"S1", "vendorB", 20, 12, 0, true⟩, ⟨"S1", "vendorA", 5, 10, 0, true⟩]
    (List.Perm.swap _ _ _) (by decide)
    (by norm_num [in_stock_valid, List.filter])

end PapsService
